import Mathlib

/-!
Verification development for the trains fare-scraping pipeline
(src/scrape.py together with src/models.py).

The Python source is shallowly embedded below.  Timestamps are modelled by
a `DateTime` structure mirroring the fields of a Python `datetime` at minute
resolution (the pipeline only ever constructs datetimes with second and
microsecond equal to zero); `datetime` arithmetic (`timedelta(days=1)`
addition, subtraction, `str()` rendering) follows the documented semantics of
the proleptic Gregorian calendar that CPython implements.  Fallible Python
operations (list indexing, `int()` / `float()` conversion, `datetime`
construction, `min()` of an empty list, a raising `requests.get`) are
modelled in the `Except` monad with a `PyErr` value naming the exception
class.
-/

/-- Python exception classes that the embedded code can raise. -/
inductive PyErr where
  | indexError
  | valueError
  | typeError
  | transportError
  deriving Repr, DecidableEq

/-- A Python `datetime` at minute resolution (the pipeline always builds
datetimes with seconds and microseconds zero). -/
structure DateTime where
  year : Nat
  month : Nat
  day : Nat
  hour : Nat
  minute : Nat
  deriving Repr, DecidableEq

/-- Gregorian leap-year test, as in CPython `calendar.isleap`. -/
def isLeap (y : Nat) : Bool :=
  y % 4 == 0 && (y % 100 != 0 || y % 400 == 0)

/-- Number of days in a month of a given year (Gregorian). -/
def daysInMonth (y m : Nat) : Nat :=
  if m = 2 then (if isLeap y then 29 else 28)
  else if m = 4 ∨ m = 6 ∨ m = 9 ∨ m = 11 then 30
  else 31

/-- Advance a datetime by one calendar day: the semantics of Python
`d + timedelta(days=1)` on the date part. -/
def addOneDay (d : DateTime) : DateTime :=
  if d.day < daysInMonth d.year d.month then { d with day := d.day + 1 }
  else if d.month < 12 then { d with month := d.month + 1, day := 1 }
  else { d with year := d.year + 1, month := 1, day := 1 }

/-- `d + timedelta(days=n)`. -/
def addDays : Nat → DateTime → DateTime
  | 0, d => d
  | n + 1, d => addOneDay (addDays n d)

/-- Days contributed by the months strictly before month `m` of year `y`. -/
def daysBeforeMonth (y m : Nat) : Nat :=
  (((List.range' 1 (m - 1)).map (daysInMonth y)).sum)

/-- Days contributed by the years strictly before year `y` (year 1 is the
first year), as in CPython `datetime._days_before_year`. -/
def daysBeforeYear (y : Nat) : Nat :=
  365 * (y - 1) + (y - 1) / 4 - (y - 1) / 100 + (y - 1) / 400

/-- Proleptic Gregorian ordinal of the date, as in Python
`datetime.toordinal` (January 1 of year 1 has ordinal 1). -/
def ordinal (d : DateTime) : Nat :=
  daysBeforeYear d.year + daysBeforeMonth d.year d.month + d.day

/-- Absolute minute count of a datetime, used to give meaning to
`timedelta` subtraction. -/
def toMinutesZ (d : DateTime) : Int :=
  1440 * (ordinal d : Int) + 60 * (d.hour : Int) + (d.minute : Int)

/-- `a - b` for Python datetimes, as a signed number of minutes. -/
def dtSub (a b : DateTime) : Int :=
  toMinutesZ a - toMinutesZ b

/-- The datetime is one Python `datetime` would accept: month, day, hour and
minute in range.  Every datetime the pipeline constructs satisfies this. -/
def ValidDT (d : DateTime) : Prop :=
  1 ≤ d.year ∧ 1 ≤ d.month ∧ d.month ≤ 12 ∧ 1 ≤ d.day ∧
    d.day ≤ daysInMonth d.year d.month ∧ d.hour < 24 ∧ d.minute < 60

instance (d : DateTime) : Decidable (ValidDT d) := by
  unfold ValidDT; infer_instance

/-- The Python `datetime(year, month, day, hour, minute)` constructor, which
raises `ValueError` on out-of-range components. -/
def mkDT (y m d h mi : Int) : Except PyErr DateTime :=
  if 1 ≤ y ∧ y ≤ 9999 ∧ 1 ≤ m ∧ m ≤ 12 ∧ 1 ≤ d ∧ h < 24 ∧ 0 ≤ h ∧ mi < 60 ∧ 0 ≤ mi ∧
      d ≤ (daysInMonth y.toNat m.toNat : Int) then
    .ok ⟨y.toNat, m.toNat, d.toNat, h.toNat, mi.toNat⟩
  else .error .valueError

/-- The decimal digit character for `n < 10`. -/
def digitChar (n : Nat) : Char := Char.ofNat (48 + n)

/-- Decimal digit list of a natural number, most significant first; the
first argument is recursion fuel (any fuel above the number works). -/
def natDigitsAux : Nat → Nat → List Char
  | 0, _ => []
  | fuel + 1, n => if n < 10 then [digitChar n]
                   else natDigitsAux fuel (n / 10) ++ [digitChar (n % 10)]

/-- Decimal digit list of a natural number, most significant first. -/
def natDigits (n : Nat) : List Char := natDigitsAux (n + 1) n

/-- Python `str` of a nonnegative integer. -/
def natStr (n : Nat) : String := ⟨natDigits n⟩

/-- Python `str` of an integer. -/
def intStr (i : Int) : String :=
  if i < 0 then "-" ++ natStr i.natAbs else natStr i.toNat

/-- Zero-pad a number to (at least) two decimal digits, as in the
`"{:02}"` format and the two-digit fields of `str(datetime)`. -/
def pad2 (n : Nat) : String :=
  if n < 10 then "0" ++ natStr n else natStr n

/-- Zero-pad a number to (at least) four decimal digits: the year field of
`str(datetime)`. -/
def pad4 (n : Nat) : String :=
  if n < 10 then "000" ++ natStr n
  else if n < 100 then "00" ++ natStr n
  else if n < 1000 then "0" ++ natStr n
  else natStr n

/-- Python `str()` of a datetime whose seconds are zero:
`"YYYY-MM-DD HH:MM:SS"`. -/
def dtStr (d : DateTime) : String :=
  pad4 d.year ++ "-" ++ pad2 d.month ++ "-" ++ pad2 d.day ++ " " ++
    pad2 d.hour ++ ":" ++ pad2 d.minute ++ ":00"

/-- Value of a digit string read in base 10 (leading zeros allowed). -/
def digitsVal (l : List Char) : Nat :=
  l.foldl (fun a c => 10 * a + (c.toNat - 48)) 0

/-- UTF-8 encoding of one character, as a list of byte values: the
semantics of Python str.encode applied per code point. -/
def utf8Bytes (c : Char) : List Nat :=
  if c.toNat < 128 then [c.toNat]
  else if c.toNat < 2048 then [192 + c.toNat / 64, 128 + c.toNat % 64]
  else if c.toNat < 65536 then
    [224 + c.toNat / 4096, 128 + (c.toNat / 64) % 64, 128 + c.toNat % 64]
  else
    [240 + c.toNat / 262144, 128 + (c.toNat / 4096) % 64,
     128 + (c.toNat / 64) % 64, 128 + c.toNat % 64]

/-- Python s.encode("utf-8") as a byte-value list. -/
def strBytes (s : String) : List Nat := (s.data.map utf8Bytes).flatten

/-- Truncate to 32 bits. -/
def w32 (n : Nat) : Nat := n % 4294967296

/-- Rotate a 32-bit value left by k bits. -/
def rotl (k n : Nat) : Nat := w32 (n * 2 ^ k) + n / 2 ^ (32 - k)

/-- Big-endian 8-byte encoding of a 64-bit value. -/
def be8 (n : Nat) : List Nat :=
  [n / 2 ^ 56 % 256, n / 2 ^ 48 % 256, n / 2 ^ 40 % 256, n / 2 ^ 32 % 256,
   n / 2 ^ 24 % 256, n / 2 ^ 16 % 256, n / 2 ^ 8 % 256, n % 256]

/-- SHA-1 message padding: 0x80, zeros, then the bit length. -/
def sha1Pad (msg : List Nat) : List Nat :=
  msg ++ [128] ++ List.replicate ((64 - (msg.length + 9) % 64) % 64) 0 ++
    be8 (8 * msg.length)

/-- Split a byte list into 64-byte chunks; the first argument is fuel. -/
def chunks64 : Nat → List Nat → List (List Nat)
  | 0, _ => []
  | _ + 1, [] => []
  | fuel + 1, l => l.take 64 :: chunks64 fuel (l.drop 64)

/-- The 16 big-endian 32-bit words of a 64-byte chunk. -/
def blockWords (b : List Nat) : List Nat :=
  (List.range 16).map (fun i =>
    b.getD (4 * i) 0 * 16777216 + b.getD (4 * i + 1) 0 * 65536 +
      b.getD (4 * i + 2) 0 * 256 + b.getD (4 * i + 3) 0)

/-- Extend the 16 schedule words to 80. -/
def extendW : Nat → List Nat → List Nat
  | 0, w => w
  | k + 1, w =>
    extendW k (w ++ [rotl 1 (Nat.xor
      (Nat.xor (w.getD (w.length - 3) 0) (w.getD (w.length - 8) 0))
      (Nat.xor (w.getD (w.length - 14) 0) (w.getD (w.length - 16) 0)))])

/-- SHA-1 round function. -/
def sha1F (t b c d : Nat) : Nat :=
  if t < 20 then Nat.lor (Nat.land b c) (Nat.land (Nat.xor b 4294967295) d)
  else if t < 40 then Nat.xor (Nat.xor b c) d
  else if t < 60 then Nat.lor (Nat.lor (Nat.land b c) (Nat.land b d)) (Nat.land c d)
  else Nat.xor (Nat.xor b c) d

/-- SHA-1 round constants. -/
def sha1K (t : Nat) : Nat :=
  if t < 20 then 1518500249 else if t < 40 then 1859775393
  else if t < 60 then 2400959708 else 3395469782

/-- One SHA-1 round on the (a, b, c, d, e) state. -/
def sha1Round (st : Nat × Nat × Nat × Nat × Nat) (tw : Nat × Nat) :
    Nat × Nat × Nat × Nat × Nat :=
  (w32 (rotl 5 st.1 + sha1F tw.1 st.2.1 st.2.2.1 st.2.2.2.1 + st.2.2.2.2 +
      sha1K tw.1 + tw.2),
   st.1, rotl 30 st.2.1, st.2.2.1, st.2.2.2.1)

/-- SHA-1 compression of one 64-byte chunk. -/
def sha1Block (h : Nat × Nat × Nat × Nat × Nat) (block : List Nat) :
    Nat × Nat × Nat × Nat × Nat :=
  let st := ((extendW 64 (blockWords block)).enum.map
      (fun p => (p.1, p.2))).foldl sha1Round h
  (w32 (h.1 + st.1), w32 (h.2.1 + st.2.1), w32 (h.2.2.1 + st.2.2.1),
   w32 (h.2.2.2.1 + st.2.2.2.1), w32 (h.2.2.2.2 + st.2.2.2.2))

/-- SHA-1 initial state. -/
def sha1Init : Nat × Nat × Nat × Nat × Nat :=
  (1732584193, 4023233417, 2562383102, 271733878, 3285377520)

/-- SHA-1 digest of a byte list, as five 32-bit words. -/
def sha1Digest (msg : List Nat) : Nat × Nat × Nat × Nat × Nat :=
  (chunks64 (sha1Pad msg).length (sha1Pad msg)).foldl sha1Block sha1Init

/-- Lower-case hexadecimal digit. -/
def hexChar (n : Nat) : Char :=
  if n < 10 then digitChar n else Char.ofNat (87 + n)

/-- Eight-digit hexadecimal rendering of a 32-bit word. -/
def hex8 (n : Nat) : String :=
  ⟨(List.range 8).map (fun i => hexChar (n / 16 ^ (7 - i) % 16))⟩

/-- hashlib.sha1(...).hexdigest() on a byte list. -/
def sha1Hex (msg : List Nat) : String :=
  hex8 (sha1Digest msg).1 ++ hex8 (sha1Digest msg).2.1 ++
    hex8 (sha1Digest msg).2.2.1 ++ hex8 (sha1Digest msg).2.2.2.1 ++
    hex8 (sha1Digest msg).2.2.2.2

/-- hashlib.sha1(s.encode("utf-8")).hexdigest(). -/
def sha1String (s : String) : String := sha1Hex (strBytes s)

set_option maxRecDepth 100000


/-- The journey dict built by parse() (models.Journey row). -/
structure JourneyD where
  src : String
  src_name : String
  dest : String
  dest_name : String
  departs : DateTime
  arrives : DateTime
  duration : Int
  changes : Int
  hash : String
  deriving Repr, DecidableEq

/-- The exact decimal value that float() parses, kept as an unreduced
numerator over a power-of-ten denominator (value = num / 10 ^ den10).
The further rounding of the decimal to a binary float has no bearing on
any pipeline behaviour and is not modelled. -/
structure DecVal where
  num : Int
  den10 : Nat
  deriving Repr, DecidableEq

/-- The fare dict built by parse() (models.Fare row). -/
structure FareD where
  price : DecVal
  com : String
  com_name : String
  type : String
  flex : String
  perm : String
  timestamp : DateTime
  deriving Repr, DecidableEq

/-- The concatenated identity string that makehash feeds to SHA-1:
"".join(str(journey[key]) for key in [src, dest, changes, departs,
arrives]). -/
def hashInput (j : JourneyD) : String :=
  j.src ++ j.dest ++ intStr j.changes ++ dtStr j.departs ++ dtStr j.arrives

/-- scrape.makehash: SHA-1 hex digest of the five identity fields. -/
def makehash (j : JourneyD) : String := sha1String (hashInput j)

/-- One result block of a page.  The fields hold the pipe-delimited value
strings of the input children of the journey-breakdown and fare-breakdown
sub-sections; a field is none when findChild finds no such sub-section. -/
structure Block where
  journeyVal : Option String
  fareVal : Option String
  deriving Repr, DecidableEq

/-- Python list indexing, raising IndexError when out of range. -/
def pyIndex (l : List String) (i : Nat) : Except PyErr String :=
  match l.get? i with
  | some s => .ok s
  | none => .error .indexError

/-- Python slice s[a:] (clamping, never raising). -/
def pySliceFrom (s : String) (a : Nat) : String := ⟨s.data.drop a⟩

/-- Python slice s[a:b] (clamping, never raising). -/
def pySlice (s : String) (a b : Nat) : String := ⟨(s.data.take b).drop a⟩

instance {ε α : Type} [DecidableEq ε] [DecidableEq α] : DecidableEq (Except ε α)
  | .error a, .error b =>
    if h : a = b then .isTrue (by rw [h])
    else .isFalse (by intro hh; cases hh; exact h rfl)
  | .error _, .ok _ => .isFalse (by intro hh; cases hh)
  | .ok _, .error _ => .isFalse (by intro hh; cases hh)
  | .ok a, .ok b =>
    if h : a = b then .isTrue (by rw [h])
    else .isFalse (by intro hh; cases hh; exact h rfl)

/-- Split a character list at every separator occurrence (second argument
accumulates the current piece in reverse). -/
def pySplitAux (sep : Char) : List Char → List Char → List (List Char)
  | [], acc => [acc.reverse]
  | c :: cs, acc =>
    if c = sep then acc.reverse :: pySplitAux sep cs []
    else pySplitAux sep cs (c :: acc)

/-- Python s.split(sep) for a one-character separator, as parse uses it on
"|" (and float parsing on "."). -/
def pySplit (s : String) (sep : Char) : List String :=
  (pySplitAux sep s.data []).map (fun l => ⟨l⟩)

/-- The characters are all decimal digits. -/
def allDigits (l : List Char) : Bool :=
  l.all (fun c => 48 ≤ c.toNat && c.toNat ≤ 57)

/-- Python int() on an unsigned digit string. -/
def pyIntOfDigits (l : List Char) : Except PyErr Int :=
  if l ≠ [] ∧ allDigits l then .ok (digitsVal l : Int) else .error .valueError

/-- Python int() on a string: optional sign then decimal digits; raises
ValueError otherwise.  (The whitespace stripping and underscore grouping
Python also accepts never occur in the scraped fields and are omitted.) -/
def pyInt (s : String) : Except PyErr Int :=
  match s.data with
  | '-' :: rest => (pyIntOfDigits rest).map (fun n => -n)
  | '+' :: rest => pyIntOfDigits rest
  | l => pyIntOfDigits l

/-- Python float() on an unsigned decimal string: digits with an optional
single point, at least one digit overall. -/
def pyFloatBody (l : List Char) : Except PyErr DecVal :=
  match pySplit (String.mk l) '.' with
  | [ip] =>
    if ip.data ≠ [] ∧ allDigits ip.data then .ok ⟨(digitsVal ip.data : Int), 0⟩
    else .error .valueError
  | [ip, fp] =>
    if (ip.data ≠ [] ∨ fp.data ≠ []) ∧ allDigits ip.data ∧ allDigits fp.data then
      .ok ⟨(digitsVal ip.data * 10 ^ fp.data.length + digitsVal fp.data : Int),
        fp.data.length⟩
    else .error .valueError
  | _ => .error .valueError

/-- Python float() on a string: optional sign then a decimal literal;
raises ValueError otherwise.  (Exponent, infinity and nan forms never
occur in price fields and are omitted.) -/
def pyFloat (s : String) : Except PyErr DecVal :=
  match s.data with
  | '-' :: rest => (pyFloatBody rest).map (fun q => ⟨-q.num, q.den10⟩)
  | '+' :: rest => pyFloatBody rest
  | l => pyFloatBody l

/-- scrape.parse: extract one (journey, fare) pair from a result block.
Returns ok none where the Python code returns False (a missing
sub-section); any exception the Python code would raise (IndexError on a
short field list, ValueError on a malformed number or date component)
surfaces as an error value.  The fallible operations appear in the
evaluation order of the source.  `now` stands for the datetime.now() call
that stamps the fare. -/
def parse (b : Block) (date : String) (now : DateTime) :
    Except PyErr (Option (JourneyD × FareD)) :=
  match b.fareVal, b.journeyVal with
  | some fv, some jv =>
    let j := pySplit jv '|'
    let f := pySplit fv '|'
    (pyIndex j 1).bind fun src =>
    (pyIndex j 0).bind fun src_name =>
    (pyIndex j 4).bind fun dest =>
    (pyIndex j 3).bind fun dest_name =>
    (pyIndex j 2).bind fun departsS =>
    (pyIndex j 5).bind fun arrivesS =>
    (pyIndex j 8).bind fun changesS =>
    (pyIndex f 3).bind fun tickettype =>
    (pyIndex f 5).bind fun priceS =>
    (pyIndex f 10).bind fun com =>
    (pyIndex f 11).bind fun com_name =>
    (pyIndex f 16).bind fun flexibility =>
    (pyIndex f 15).bind fun permission =>
    (pyInt (pySliceFrom date 4)).bind fun y2 =>
    (pyInt (pySlice date 2 4)).bind fun mo =>
    (pyInt (pySlice date 0 2)).bind fun dayN =>
    (pyInt (pySlice departsS 0 2)).bind fun depH =>
    (pyInt (pySliceFrom departsS 3)).bind fun depM =>
    (pyInt (pySlice arrivesS 0 2)).bind fun arrH =>
    (pyInt (pySliceFrom arrivesS 3)).bind fun arrM =>
    (mkDT (2000 + y2) mo dayN depH depM).bind fun departs =>
    (mkDT (2000 + y2) mo dayN arrH arrM).bind fun arrives0 =>
    let arrives := if arrH < depH then addOneDay arrives0 else arrives0
    (pyInt changesS).bind fun changes =>
    let j0 : JourneyD :=
      ⟨src, src_name, dest, dest_name, departs, arrives,
        dtSub arrives departs, changes, ""⟩
    let journey := { j0 with hash := makehash j0 }
    (pyFloat priceS).map fun price =>
    some (journey, ⟨price, com, com_name, tickettype, flexibility, permission, now⟩)
  | _, _ => .ok none

/-- list(filter(bool, (parse(tag, date) for tag in page))): parse the
blocks in page order, dropping False results; an exception raised by any
parse aborts the whole page. -/
def parseAll : List Block → String → DateTime → Except PyErr (List (JourneyD × FareD))
  | [], _, _ => .ok []
  | b :: bs, date, now =>
    match parse b date now with
    | .error e => .error e
    | .ok none => parseAll bs date now
    | .ok (some t) => (parseAll bs date now).map (fun l => t :: l)

/-- The per-tuple body of the rollover loop in scrape.process: a tuple
whose departure hour is below the page anchor hour is moved one day
forward, with duration, then fingerprint, recomputed in source order. -/
def fixTuple (anchor : Nat) (t : JourneyD × FareD) : JourneyD × FareD :=
  if t.1.departs.hour < anchor then
    let j1 := { t.1 with
      departs := addOneDay t.1.departs,
      arrives := addOneDay t.1.arrives,
      duration := dtSub (addOneDay t.1.arrives) (addOneDay t.1.departs) }
    ({ j1 with hash := makehash j1 }, t.2)
  else t

/-- The rollover correction of scrape.process: anchor the first tuple of
the page, then fix every tuple against that anchor. -/
def rollover (data : List (JourneyD × FareD)) : List (JourneyD × FareD) :=
  match data with
  | [] => []
  | t0 :: _ => data.map (fixTuple t0.1.departs.hour)

/-- An HTTP response: status code plus the result blocks of the page. -/
structure Response where
  status : Nat
  blocks : List Block
  deriving Repr, DecidableEq

/-- A scheduled request descriptor: the url and the requested-date tag. -/
structure Request where
  url : String
  date : String
  deriving Repr, DecidableEq

/-- scrape.process on one descriptor: fetch (a raising requests.get
propagates as an error), then on HTTP 200 extract and rollover-correct;
any other status yields no tuples. -/
def processReq (fetch : Request → Except PyErr Response) (r : Request)
    (now : DateTime) : Except PyErr (List (JourneyD × FareD)) :=
  match fetch r with
  | .error e => .error e
  | .ok resp =>
    if resp.status = 200 then (parseAll resp.blocks r.date now).map rollover
    else .ok []

/-- strftime("%d%m%y"). -/
def dateFmt (d : DateTime) : String :=
  pad2 d.day ++ pad2 d.month ++ pad2 (d.year % 100)

/-- DATETIMES: today + timedelta(days=i) for i in range(1, 91). -/
def DATETIMES (today : DateTime) : List DateTime :=
  (List.range' 1 90).map (fun i => addDays i today)

/-- DATES: the DDMMYY renderings of DATETIMES. -/
def DATES (today : DateTime) : List String := (DATETIMES today).map dateFmt

/-- TIMES: "{:02}00".format(x) for x in range(25). -/
def TIMES : List String := (List.range 25).map (fun x => pad2 x ++ "00")

/-- The url template of scrape.py. -/
def TMPL (src dest date time : String) : String :=
  "http:" ++ "//ojp.nationalrail.co.uk/service/timesandfares/" ++
    src ++ "/" ++ dest ++ "/" ++ date ++ "/" ++ time ++ "/dep"

/-- Python slicing step l[::3]: every third element. -/
def everyThird (l : List String) : List String :=
  (l.enum.filter (fun p => p.1 % 3 == 0)).map Prod.snd

/-- scrape.build_reqs: the request schedule for one origin and
destination, relative to a reference date. -/
def build_reqs (src dest : String) (today : DateTime) : List Request :=
  (DATES today).flatMap (fun d =>
    (everyThird TIMES).map (fun t => ⟨TMPL src dest d t, d⟩))

/-- The store: one entry per Journey carrying the list of Fares attached
to it.  This models the two tables of models.py related by jid; the fares
list of an entry is what the jid join in scrape() returns.  Fingerprint
lookup models one_or_none under the hash uniqueness the pipeline
maintains (a journey row is only inserted when its hash is absent). -/
abbrev Store := List (JourneyD × List FareD)

/-- Python min(fares, key=keyf): the first element attaining the minimal
key; undefined (ValueError, modelled as none) on an empty list. -/
def pyMinBy (keyf : FareD → Nat) : List FareD → Option FareD
  | [] => none
  | x :: xs => some (xs.foldl (fun best y => if keyf y < keyf best then y else best) x)

/-- Append a fare to the journey entry with the given fingerprint. -/
def appendFareAt (s : Store) (h : String) (f : FareD) : Store :=
  s.map (fun e => if e.1.hash = h then (e.1, e.2 ++ [f]) else e)

/-- One iteration of the ingestion loop of scrape.scrape: the Ingestion
Deduplicator.  `now` stands for the datetime.now() taken just before the
nearest-neighbor computation. -/
def ingest (s : Store) (j : JourneyD) (f : FareD) (now : DateTime) :
    Except PyErr Store :=
  match s.find? (fun e => e.1.hash == j.hash) with
  | none => .ok (s ++ [(j, [f])])
  | some e =>
    match pyMinBy (fun x => (dtSub x.timestamp now).natAbs) e.2 with
    | none => .error .valueError
    | some mostrecent =>
      if (dtSub mostrecent.timestamp now).natAbs > 23 * 60 then
        .ok (appendFareAt s j.hash f)
      else .ok s

/-- Ingest the tuples of one page in order. -/
def ingestAll (now : DateTime) : Store → List (JourneyD × FareD) → Except PyErr Store
  | s, [] => .ok s
  | s, (j, f) :: ts =>
    match ingest s j f now with
    | .error e => .error e
    | .ok s1 => ingestAll now s1 ts

/-- The harvest loop of scrape.scrape over a request schedule. -/
def scrapeRun (fetch : Request → Except PyErr Response) (now : DateTime) :
    List Request → Store → Except PyErr Store
  | [], s => .ok s
  | r :: rs, s =>
    match processReq fetch r now with
    | .error e => .error e
    | .ok ts =>
      match ingestAll now s ts with
      | .error e => .error e
      | .ok s1 => scrapeRun fetch now rs s1

/-- The per-day sample times transcribed from the words of the
specification: eight samples, 00:00 through 21:00 (refinement target for
the schedule-generator claim). -/
def specTimes8 : List String :=
  ["0000", "0300", "0600", "0900", "1200", "1500", "1800", "2100"]

/-- The schedule transcribed from the words of the specification: days 1
through 90 ahead of the reference date, eight three-hour samples per day,
each descriptor tagged with its requested date. -/
def specSchedule8 (src dest : String) (today : DateTime) : List Request :=
  (List.range' 1 90).flatMap (fun i =>
    specTimes8.map (fun t =>
      ⟨TMPL src dest (dateFmt (addDays i today)) t, dateFmt (addDays i today)⟩))

/-- The per-day sample times the code actually uses: TIMES[::3] has nine
elements because TIMES runs from "0000" to "2400". -/
def actualTimes9 : List String :=
  ["0000", "0300", "0600", "0900", "1200", "1500", "1800", "2100", "2400"]

/-- The schedule in the explicit form of the specification, but with the
nine sample times per day that the code produces. -/
def specSchedule9 (src dest : String) (today : DateTime) : List Request :=
  (List.range' 1 90).flatMap (fun i =>
    actualTimes9.map (fun t =>
      ⟨TMPL src dest (dateFmt (addDays i today)) t, dateFmt (addDays i today)⟩))

/-- Every Journey entry of the store carries at least one Fare. -/
def StoreInv (s : Store) : Prop := ∀ e ∈ s, e.2 ≠ []

instance (s : Store) : Decidable (StoreInv s) := by
  unfold StoreInv; infer_instance

/-- Bounds under which str(datetime) renders every component at its fixed
width (4-2-2-2-2 digits); Python datetimes always satisfy them. -/
def StrB (d : DateTime) : Prop :=
  d.year < 10000 ∧ d.month < 100 ∧ d.day < 100 ∧ d.hour < 100 ∧ d.minute < 100

instance (d : DateTime) : Decidable (StrB d) := by
  unfold StrB; infer_instance

/-- Conditions under which the unseparated concatenation fed to SHA-1 is
unambiguous: three-letter station codes, nonnegative change count, and
datetimes within the fixed-width rendering bounds. -/
def HashSafe (j : JourneyD) : Prop :=
  j.src.data.length = 3 ∧ j.dest.data.length = 3 ∧ 0 ≤ j.changes ∧
    StrB j.departs ∧ StrB j.arrives

instance (j : JourneyD) : Decidable (HashSafe j) := by
  unfold HashSafe; infer_instance

/-- A reference date used in concrete scenarios. -/
def refDate : DateTime := ⟨2024, 1, 1, 0, 0⟩

/-- A well-formed journey-breakdown input value (9 pipe fields). -/
def gJV : String := "London Paddington|PAD|12:00|St Austell|SAU|16:49|0|0|2"

/-- A well-formed fare-breakdown input value (17 pipe fields). -/
def gFV : String :=
  "0|0|0|Super Off-Peak Single|0|60.00|0|0|0|0|GWA|Great Western Railway|0|0|0|ANY PERMITTED|FLEXIBLE"

/-- A result block that parses cleanly. -/
def goodBlock : Block := ⟨some gJV, some gFV⟩

/-- A result block whose fare-breakdown sub-section is missing. -/
def badBlock : Block := ⟨some gJV, none⟩

/-- A result block whose journey field list is too short (2 fields). -/
def shortBlock : Block := ⟨some "London Paddington|PAD", some gFV⟩

/-- A fare-breakdown value whose price field is not numeric. -/
def badPriceFV : String :=
  "0|0|0|Super Off-Peak Single|0|N/A|0|0|0|0|GWA|Great Western Railway|0|0|0|ANY PERMITTED|FLEXIBLE"

/-- A result block with a malformed price field. -/
def badPriceBlock : Block := ⟨some gJV, some badPriceFV⟩

/-- The requested-date tag of the concrete page: 1 March 2016. -/
def demoDate : String := "010316"

/-- The wall-clock instant of the concrete scrape. -/
def demoNow : DateTime := ⟨2016, 2, 1, 9, 0⟩

/-- A journey already persisted in the store, fingerprint "abc123". -/
def wJourney : JourneyD :=
  ⟨"PAD", "London Paddington", "SAU", "St Austell", ⟨2024, 1, 10, 12, 0⟩,
    ⟨2024, 1, 10, 16, 49⟩, 289, 2, "abc123"⟩

/-- The fare observed for wJourney at 2024-01-01T10:00. -/
def wFare0 : FareD :=
  ⟨⟨60, 0⟩, "GWA", "Great Western Railway", "Advance", "FLEXIBLE", "ANY PERMITTED",
    ⟨2024, 1, 1, 10, 0⟩⟩

/-- A store holding wJourney with its single fare. -/
def wStore : Store := [(wJourney, [wFare0])]

/-- A new observation 22 hours 59 minutes after wFare0. -/
def wFareA : FareD := { wFare0 with timestamp := ⟨2024, 1, 2, 8, 59⟩ }

/-- A new observation 23 hours 1 minute after wFare0. -/
def wFareB : FareD := { wFare0 with timestamp := ⟨2024, 1, 2, 9, 1⟩ }

/-- A fetcher answering every request with HTTP 200 and one good block. -/
def demoFetch200 : Request → Except PyErr Response :=
  fun _ => .ok ⟨200, [goodBlock]⟩

/-- A fetcher answering the 1 March request with HTTP 404 and everything
else with a good page. -/
def demoFetch404 : Request → Except PyErr Response :=
  fun r => if r.date = demoDate then .ok ⟨404, [goodBlock]⟩ else .ok ⟨200, [goodBlock]⟩

/-- A fetcher whose 1 March request raises a transport error while every
other request returns a good page. -/
def demoFetchTE : Request → Except PyErr Response :=
  fun r => if r.date = demoDate then .error .transportError else .ok ⟨200, [goodBlock]⟩

/-- The 1 March request descriptor. -/
def demoReq : Request := ⟨TMPL "PAD" "SAU" demoDate "1200", demoDate⟩

/-- A second descriptor, for 2 March. -/
def demoReq2 : Request := ⟨TMPL "PAD" "SAU" "020316" "1200", "020316"⟩

/-- A fallback tuple for headD. -/
def dummyTuple : JourneyD × FareD :=
  (⟨"", "", "", "", ⟨1, 1, 1, 0, 0⟩, ⟨1, 1, 1, 0, 0⟩, 0, 0, ""⟩,
   ⟨⟨0, 0⟩, "", "", "", "", "", ⟨1, 1, 1, 0, 0⟩⟩)

/-- The tuples the pipeline extracts from the single-block 200 page. -/
def demoTuples : List (JourneyD × FareD) :=
  match processReq demoFetch200 demoReq demoNow with
  | .ok l => l
  | .error _ => []

/-- The first tuple of the concrete pipeline output. -/
def demoTuple : JourneyD × FareD := demoTuples.headD dummyTuple

/-- First tuple of a rollover demonstration page: departs 23:30. -/
def rT0 : JourneyD × FareD :=
  (⟨"PAD", "London Paddington", "SAU", "St Austell", ⟨2016, 3, 1, 23, 30⟩,
      ⟨2016, 3, 1, 23, 45⟩, 15, 0, "h0"⟩,
   ⟨⟨10, 0⟩, "GWA", "Great Western Railway", "Advance", "FLEXIBLE", "ANY PERMITTED", demoNow⟩)

/-- Second tuple of the rollover page: departs 00:30, a spillover into the
next day wrongly dated 1 March. -/
def rT1 : JourneyD × FareD :=
  (⟨"PAD", "London Paddington", "SAU", "St Austell", ⟨2016, 3, 1, 0, 30⟩,
      ⟨2016, 3, 1, 4, 15⟩, 225, 1, "h1"⟩,
   ⟨⟨20, 0⟩, "GWA", "Great Western Railway", "Advance", "FLEXIBLE", "ANY PERMITTED", demoNow⟩)

/-- A journey with two-letter origin "AB" and destination "CD". -/
def cJ1 : JourneyD :=
  ⟨"AB", "somewhere", "CD", "elsewhere", ⟨2024, 1, 10, 12, 0⟩,
    ⟨2024, 1, 10, 16, 49⟩, 289, 2, ""⟩

/-- A journey with origin "ABC" and destination "D": its identity fields
differ from cJ1 yet the concatenation fed to SHA-1 is identical. -/
def cJ2 : JourneyD :=
  ⟨"ABC", "somewhere", "D", "elsewhere", ⟨2024, 1, 10, 12, 0⟩,
    ⟨2024, 1, 10, 16, 49⟩, 289, 2, ""⟩

/-- A three-letter-code journey. -/
def wJ1 : JourneyD :=
  ⟨"PAD", "London Paddington", "SAU", "St Austell", ⟨2024, 1, 10, 12, 0⟩,
    ⟨2024, 1, 10, 16, 49⟩, 289, 2, ""⟩

/-- Like wJ1 but for a different destination code. -/
def wJ2 : JourneyD :=
  ⟨"PAD", "London Paddington", "SAX", "Salford", ⟨2024, 1, 10, 12, 0⟩,
    ⟨2024, 1, 10, 16, 49⟩, 289, 2, ""⟩

/-- Faithfulness check of the SHA-1 embedding against the standard
test vector for "abc". -/
theorem sha1String_abc :
    sha1String "abc" = "a9993e364706816aba3e25717850c26c9cd0d89d" := by decide

theorem scrapeRun_cons (fetch : Request → Except PyErr Response) (now : DateTime)
    (r : Request) (rs : List Request) (s : Store) :
    scrapeRun fetch now (r :: rs) s =
      match processReq fetch r now with
      | .error e => .error e
      | .ok ts =>
        match ingestAll now s ts with
        | .error e => .error e
        | .ok s1 => scrapeRun fetch now rs s1 := rfl

theorem exceptBind_ok {α β : Type} {x : Except PyErr α} {g : α → Except PyErr β}
    {v : β} (h : x.bind g = .ok v) : ∃ a, x = .ok a ∧ g a = .ok v := by
  cases x with
  | error e => simp [Except.bind] at h
  | ok a => exact ⟨a, rfl, h⟩

theorem exceptMap_ok {α β : Type} {x : Except PyErr α} {g : α → β}
    {v : β} (h : x.map g = .ok v) : ∃ a, x = .ok a ∧ g a = v := by
  cases x with
  | error e => simp [Except.map] at h
  | ok a => simp only [Except.map] at h; exact ⟨a, rfl, by injection h⟩

theorem listMap_id {α : Type} (f : α → α) (l : List α) (h : ∀ x ∈ l, f x = x) :
    l.map f = l := by
  induction l with
  | nil => rfl
  | cons a as ih =>
    simp only [List.map_cons]
    rw [h a (by simp), ih (fun y hy => h y (by simp [hy]))]

theorem listMap_id_mem {α : Type} (f : α → α) (l : List α) (h : l.map f = l) :
    ∀ x ∈ l, f x = x := by
  induction l with
  | nil => simp
  | cons a as ih =>
    simp only [List.map_cons, List.cons.injEq] at h
    intro x hx
    rcases List.mem_cons.mp hx with rfl | hx2
    · exact h.1
    · exact ih h.2 x hx2

/-- C2 (amended): for every origin, destination and reference date, the
Schedule Generator produces the ordered sequence covering days 1 through
90 ahead, in ascending day order, with nine three-hour samples per day
("0000" through "2400") in ascending time order, each descriptor tagged
with its requested date. -/
theorem build_reqs_eq_spec9 (src dest : String) (today : DateTime) :
    build_reqs src dest today = specSchedule9 src dest today := by
  have ht : everyThird TIMES = actualTimes9 := by decide
  simp only [build_reqs, DATES, DATETIMES, specSchedule9, ht, List.map_map,
    List.flatMap_map, Function.comp]

/-- C2 (counterexample): the schedule does not consist of eight samples
per day at 00:00 through 21:00; it has nine samples per day, 810
descriptors in total rather than 720. -/
theorem build_reqs_ne_spec8 :
    (build_reqs "PAD" "SAU" refDate).length = 810 ∧
    (specSchedule8 "PAD" "SAU" refDate).length = 720 ∧
    build_reqs "PAD" "SAU" refDate ≠ specSchedule8 "PAD" "SAU" refDate := by
  refine ⟨by decide, by decide, fun h => ?_⟩
  have h1 : (build_reqs "PAD" "SAU" refDate).length = 810 := by decide
  have h2 : (specSchedule8 "PAD" "SAU" refDate).length = 720 := by decide
  rw [h, h2] at h1
  exact absurd h1 (by decide)

/-- C7 (confirmed): the Rollover Corrector is a no-op on a page already
corrected, one where no tuple departs at an hour numerically below the
first tuple's departure hour: no departure, arrival, duration or
fingerprint changes. -/
theorem rollover_noop (t0 : JourneyD × FareD) (ts : List (JourneyD × FareD))
    (h : ∀ t ∈ t0 :: ts, ¬ t.1.departs.hour < t0.1.departs.hour) :
    rollover (t0 :: ts) = t0 :: ts := by
  unfold rollover
  apply listMap_id
  intro t ht
  unfold fixTuple
  rw [if_neg (h t ht)]

/-- C7 witness: a concrete already-corrected page is unchanged. -/
theorem rollover_noop_witness : rollover [rT1, rT0] = [rT1, rT0] :=
  rollover_noop rT1 [rT0] (by decide)

/-- C5 (confirmed): a result block missing its journey sub-section or its
fare sub-section is silently skipped; extraction of the surrounding
blocks proceeds exactly as if the block were absent. -/
theorem parseAll_skips_missing (pre post : List Block) (b : Block)
    (date : String) (now : DateTime)
    (h : b.journeyVal = none ∨ b.fareVal = none) :
    parseAll (pre ++ b :: post) date now = parseAll (pre ++ post) date now := by
  have hb : parse b date now = .ok none := by
    rcases h with h | h
    · cases hf : b.fareVal <;> simp [parse, h, hf]
    · simp [parse, h]
  induction pre with
  | nil => simp [parseAll, hb]
  | cons p ps ih =>
    have e1 : (p :: ps) ++ b :: post = p :: (ps ++ b :: post) := rfl
    have e2 : (p :: ps) ++ post = p :: (ps ++ post) := rfl
    rw [e1, e2]
    simp only [parseAll]
    rw [ih]

/-- C5 witness: a page of three blocks whose second lacks the fare
sub-section yields exactly the two tuples of the other blocks. -/
theorem parseAll_skips_missing_witness :
    parseAll [goodBlock, badBlock, goodBlock] demoDate demoNow =
      parseAll [goodBlock, goodBlock] demoDate demoNow ∧
    (match parseAll [goodBlock, goodBlock] demoDate demoNow with
      | .ok l => l.length == 2
      | .error _ => false) = true :=
  ⟨parseAll_skips_missing [goodBlock] [goodBlock] badBlock demoDate demoNow
    (Or.inr rfl), by decide⟩

/-- C9 (amended): a descriptor whose fetch returns a non-success status
code yields zero tuples and is skipped, and the harvest continues with
the next descriptor; a raising transport error or timeout, however,
propagates and aborts the run (see the counterexample). -/
theorem scrapeRun_skips_bad_status (fetch : Request → Except PyErr Response)
    (r : Request) (rs : List Request) (now : DateTime) (s : Store)
    (resp : Response) (hf : fetch r = .ok resp) (hs : resp.status ≠ 200) :
    processReq fetch r now = .ok [] ∧
    scrapeRun fetch now (r :: rs) s = scrapeRun fetch now rs s := by
  have hp : processReq fetch r now = .ok [] := by
    unfold processReq; rw [hf]; simp [hs]
  refine ⟨hp, ?_⟩
  rw [scrapeRun_cons, hp]
  simp [ingestAll]

/-- C9 witness: a 404 response on the first descriptor is skipped and the
run continues with the second descriptor. -/
theorem scrapeRun_skips_bad_status_witness :
    processReq demoFetch404 demoReq demoNow = .ok [] ∧
    scrapeRun demoFetch404 demoNow [demoReq, demoReq2] [] =
      scrapeRun demoFetch404 demoNow [demoReq2] [] :=
  scrapeRun_skips_bad_status demoFetch404 demoReq [demoReq2] demoNow []
    ⟨404, [goodBlock]⟩ (by decide) (by decide)

/-- C9 (counterexample): a transport error on the first descriptor aborts
the whole harvest run with the exception, losing the second descriptor,
which on its own would have persisted a journey. -/
theorem scrapeRun_transport_aborts :
    scrapeRun demoFetchTE demoNow [demoReq, demoReq2] [] =
      .error .transportError ∧
    (match scrapeRun demoFetchTE demoNow [demoReq2] [] with
      | .ok s => s.length == 1
      | .error _ => false) = true := by
  exact ⟨by decide, by decide⟩

/-- C4 (code bug): a block whose journey field list is too short makes
parse raise IndexError instead of returning False, and a malformed price
makes it raise ValueError; either exception aborts the whole page rather
than discarding the single tuple. -/
theorem parse_malformed_raises :
    parse shortBlock demoDate demoNow = .error .indexError ∧
    parse badPriceBlock demoDate demoNow = .error .valueError ∧
    parseAll [goodBlock, badPriceBlock, goodBlock] demoDate demoNow =
      .error .valueError := by
  exact ⟨by decide, by decide, by decide⟩

theorem pyMinBy_foldl_spec (keyf : FareD → Nat) (xs : List FareD) :
    ∀ x : FareD,
      (xs.foldl (fun best y => if keyf y < keyf best then y else best) x) ∈ x :: xs ∧
      ∀ y ∈ x :: xs,
        keyf (xs.foldl (fun best y => if keyf y < keyf best then y else best) x) ≤
          keyf y := by
  induction xs with
  | nil =>
    intro x
    refine ⟨by simp, ?_⟩
    intro y hy
    rcases List.mem_cons.mp hy with rfl | hy2
    · exact Nat.le_refl _
    · simp at hy2
  | cons z zs ih =>
    intro x
    obtain ⟨ihmem, ihle⟩ := ih (if keyf z < keyf x then z else x)
    have hstep_x : keyf (if keyf z < keyf x then z else x) ≤ keyf x := by
      split <;> omega
    have hstep_z : keyf (if keyf z < keyf x then z else x) ≤ keyf z := by
      split <;> omega
    constructor
    · simp only [List.foldl_cons]
      rcases List.mem_cons.mp ihmem with h | h
      · rw [h]
        split
        · simp
        · simp
      · simp [h]
    · intro y hy
      simp only [List.foldl_cons]
      have hres := ihle (if keyf z < keyf x then z else x) (by simp)
      rcases List.mem_cons.mp hy with rfl | hy2
      · exact Nat.le_trans hres hstep_x
      · rcases List.mem_cons.mp hy2 with rfl | hy3
        · exact Nat.le_trans hres hstep_z
        · exact ihle y (by simp [hy3])

theorem ingest_notfound (s : Store) (j : JourneyD) (f : FareD) (now : DateTime)
    (hfind : s.find? (fun x => x.1.hash == j.hash) = none) :
    ingest s j f now = .ok (s ++ [(j, [f])]) := by
  unfold ingest
  rw [hfind]

theorem ingest_found (s : Store) (j : JourneyD) (f : FareD) (now : DateTime)
    (e : JourneyD × List FareD)
    (hfind : s.find? (fun x => x.1.hash == j.hash) = some e) :
    ingest s j f now =
      match pyMinBy (fun x => (dtSub x.timestamp now).natAbs) e.2 with
      | none => .error .valueError
      | some mostrecent =>
        if (dtSub mostrecent.timestamp now).natAbs > 23 * 60 then
          .ok (appendFareAt s j.hash f)
        else .ok s := by
  unfold ingest
  rw [hfind]

/-- C10 (confirmed): under the invariant that every stored Journey carries
at least one Fare, ingestion always succeeds and preserves the invariant;
the nearest-neighbor minimum of the existing-journey branch is partial
(None, a ValueError in Python) on an empty fare list, and under the
invariant the fare list fetched for a matched Journey is never empty. -/
theorem ingest_preserves_nonempty_fares (s : Store) (j : JourneyD) (f : FareD)
    (now : DateTime) (hinv : StoreInv s) :
    (∃ s1, ingest s j f now = .ok s1 ∧ StoreInv s1) ∧
    (∀ keyf : FareD → Nat, pyMinBy keyf [] = none) ∧
    (∀ e, s.find? (fun x => x.1.hash == j.hash) = some e → e.2 ≠ []) := by
  refine ⟨?_, fun _ => rfl, fun e he => hinv e (List.mem_of_find?_eq_some he)⟩
  cases hfind : s.find? (fun x => x.1.hash == j.hash) with
  | none =>
    refine ⟨s ++ [(j, [f])], ingest_notfound s j f now hfind, ?_⟩
    intro e he
    rcases List.mem_append.mp he with h | h
    · exact hinv e h
    · simp at h
      rw [h]
      simp
  | some e =>
    have he2 : e.2 ≠ [] := hinv e (List.mem_of_find?_eq_some hfind)
    obtain ⟨x, xs, hx⟩ := List.exists_cons_of_ne_nil he2
    rw [ingest_found s j f now e hfind, hx]
    simp only [pyMinBy]
    split
    · refine ⟨appendFareAt s j.hash f, rfl, ?_⟩
      intro e1 he1
      unfold appendFareAt at he1
      rcases List.mem_map.mp he1 with ⟨a, ha, rfl⟩
      by_cases hc : a.1.hash = j.hash <;> simp [hc]
      exact hinv a ha
    · exact ⟨s, rfl, hinv⟩

/-- C10 witness: the invariant store wStore accepts a new observation and
keeps every journey with at least one fare. -/
theorem ingest_preserves_nonempty_fares_witness :
    (∃ s1, ingest wStore wJourney wFareB ⟨2024, 1, 2, 9, 1⟩ = .ok s1 ∧ StoreInv s1) ∧
    (∀ keyf : FareD → Nat, pyMinBy keyf [] = none) ∧
    (∀ e, wStore.find? (fun x => x.1.hash == wJourney.hash) = some e → e.2 ≠ []) :=
  ingest_preserves_nonempty_fares wStore wJourney wFareB ⟨2024, 1, 2, 9, 1⟩ (by decide)

/-- C1 (confirmed): for a tuple whose fingerprint matches a stored Journey
with a non-empty fare list, when the deduplication clock agrees with the
observation timestamp the new Fare is persisted (store extended at that
journey) exactly when every existing gap, hence the minimum gap, exceeds
23 hours; otherwise the store is returned unchanged. -/
theorem ingest_dedup_23h (s : Store) (j : JourneyD) (f : FareD) (now : DateTime)
    (e : JourneyD × List FareD)
    (hfind : s.find? (fun x => x.1.hash == j.hash) = some e)
    (hne : e.2 ≠ []) (hts : f.timestamp = now) :
    ((∀ g ∈ e.2, (dtSub g.timestamp f.timestamp).natAbs > 23 * 60) →
        ingest s j f now = .ok (appendFareAt s j.hash f) ∧
        appendFareAt s j.hash f ≠ s) ∧
    ((∃ g ∈ e.2, (dtSub g.timestamp f.timestamp).natAbs ≤ 23 * 60) →
        ingest s j f now = .ok s) := by
  subst hts
  obtain ⟨x, xs, hx⟩ := List.exists_cons_of_ne_nil hne
  have hingest : ingest s j f f.timestamp =
      if (dtSub (xs.foldl (fun best y =>
            if (dtSub y.timestamp f.timestamp).natAbs <
                (dtSub best.timestamp f.timestamp).natAbs then y else best) x).timestamp
          f.timestamp).natAbs > 23 * 60 then
        .ok (appendFareAt s j.hash f)
      else .ok s := by
    rw [ingest_found s j f f.timestamp e hfind, hx]
    simp only [pyMinBy]
  obtain ⟨hmem, hle⟩ :=
    pyMinBy_foldl_spec (fun g => (dtSub g.timestamp f.timestamp).natAbs) xs x
  constructor
  · intro hall
    have hbig := hall _ (hx ▸ hmem)
    refine ⟨by rw [hingest, if_pos hbig], ?_⟩
    intro hcontra
    have hmem_e : e ∈ s := List.mem_of_find?_eq_some hfind
    have hhash : e.1.hash = j.hash := by simpa using List.find?_some hfind
    have hid := listMap_id_mem _ s hcontra e hmem_e
    rw [if_pos hhash] at hid
    have hsnd := congrArg Prod.snd hid
    simp at hsnd
  · intro hex
    obtain ⟨g, hg, hgle⟩ := hex
    have hmin : (dtSub (xs.foldl (fun best y =>
        if (dtSub y.timestamp f.timestamp).natAbs <
            (dtSub best.timestamp f.timestamp).natAbs then y else best) x).timestamp
        f.timestamp).natAbs ≤ (dtSub g.timestamp f.timestamp).natAbs :=
      hle g (hx ▸ hg)
    rw [hingest, if_neg (by omega)]

/-- C1 witness: the boundary scenario of the specification.  With one
fare observed at 2024-01-01T10:00, a new observation at 2024-01-02T08:59
(gap 22h59m) is suppressed, while one at 2024-01-02T09:01 (gap 23h01m)
is persisted as a second Fare on the same Journey. -/
theorem ingest_dedup_23h_witness :
    ingest wStore wJourney wFareA ⟨2024, 1, 2, 8, 59⟩ = .ok wStore ∧
    ingest wStore wJourney wFareB ⟨2024, 1, 2, 9, 1⟩ =
      .ok (appendFareAt wStore wJourney.hash wFareB) :=
  ⟨(ingest_dedup_23h wStore wJourney wFareA ⟨2024, 1, 2, 8, 59⟩
      (wJourney, [wFare0]) (by decide) (by decide) (by decide)).2
      ⟨wFare0, by decide, by decide⟩,
   ((ingest_dedup_23h wStore wJourney wFareB ⟨2024, 1, 2, 9, 1⟩
      (wJourney, [wFare0]) (by decide) (by decide) (by decide)).1
      (by decide)).1⟩


theorem parse_ok_some (b : Block) (date : String) (now : DateTime)
    (t : JourneyD × FareD) (h : parse b date now = .ok (some t)) :
    t.1.duration = dtSub t.1.arrives t.1.departs := by
  unfold parse at h
  cases hbf : b.fareVal with
  | none => rw [hbf] at h; simp at h
  | some fv =>
    cases hbj : b.journeyVal with
    | none => rw [hbf, hbj] at h; simp at h
    | some jv =>
      rw [hbf, hbj] at h
      simp only [] at h
      obtain ⟨src, _, h⟩ := exceptBind_ok h
      obtain ⟨src_name, _, h⟩ := exceptBind_ok h
      obtain ⟨dest, _, h⟩ := exceptBind_ok h
      obtain ⟨dest_name, _, h⟩ := exceptBind_ok h
      obtain ⟨departsS, _, h⟩ := exceptBind_ok h
      obtain ⟨arrivesS, _, h⟩ := exceptBind_ok h
      obtain ⟨changesS, _, h⟩ := exceptBind_ok h
      obtain ⟨tickettype, _, h⟩ := exceptBind_ok h
      obtain ⟨priceS, _, h⟩ := exceptBind_ok h
      obtain ⟨com, _, h⟩ := exceptBind_ok h
      obtain ⟨com_name, _, h⟩ := exceptBind_ok h
      obtain ⟨flexibility, _, h⟩ := exceptBind_ok h
      obtain ⟨permission, _, h⟩ := exceptBind_ok h
      obtain ⟨y2, _, h⟩ := exceptBind_ok h
      obtain ⟨mo, _, h⟩ := exceptBind_ok h
      obtain ⟨dayN, _, h⟩ := exceptBind_ok h
      obtain ⟨depH, _, h⟩ := exceptBind_ok h
      obtain ⟨depM, _, h⟩ := exceptBind_ok h
      obtain ⟨arrH, _, h⟩ := exceptBind_ok h
      obtain ⟨arrM, _, h⟩ := exceptBind_ok h
      obtain ⟨departs, _, h⟩ := exceptBind_ok h
      obtain ⟨arrives0, _, h⟩ := exceptBind_ok h
      obtain ⟨changes, _, h⟩ := exceptBind_ok h
      obtain ⟨price, _, ht⟩ := exceptMap_ok h
      injection ht with ht
      rw [← ht]

theorem parseAll_mem (blocks : List Block) (date : String) (now : DateTime)
    (l : List (JourneyD × FareD)) (h : parseAll blocks date now = .ok l)
    (t : JourneyD × FareD) (ht : t ∈ l) :
    ∃ b, parse b date now = .ok (some t) := by
  induction blocks generalizing l with
  | nil =>
    simp [parseAll] at h
    subst h
    simp at ht
  | cons b bs ih =>
    simp only [parseAll] at h
    cases hp : parse b date now with
    | error e => rw [hp] at h; simp at h
    | ok o =>
      rw [hp] at h
      cases o with
      | none => exact ih l h ht
      | some t0 =>
        obtain ⟨l0, hl0, hcons⟩ := exceptMap_ok h
        rw [← hcons] at ht
        rcases List.mem_cons.mp ht with rfl | ht2
        · exact ⟨b, hp⟩
        · exact ih l0 hl0 ht2

theorem processReq_fetched (fetch : Request → Except PyErr Response)
    (r : Request) (now : DateTime) (resp : Response) (hf : fetch r = .ok resp) :
    processReq fetch r now =
      if resp.status = 200 then (parseAll resp.blocks r.date now).map rollover
      else .ok [] := by
  unfold processReq
  rw [hf]

/-- C8 (confirmed): every journey tuple the pipeline produces for a
descriptor, after extraction (with its same-page overnight adjustment)
and after rollover correction, has duration equal to arrival minus
departure exactly. -/
theorem pipeline_duration (fetch : Request → Except PyErr Response)
    (r : Request) (now : DateTime) (l : List (JourneyD × FareD))
    (hl : processReq fetch r now = .ok l) (t : JourneyD × FareD) (ht : t ∈ l) :
    t.1.duration = dtSub t.1.arrives t.1.departs := by
  cases hf : fetch r with
  | error e =>
    unfold processReq at hl
    rw [hf] at hl
    simp at hl
  | ok resp =>
    rw [processReq_fetched fetch r now resp hf] at hl
    by_cases hs : resp.status = 200
    · rw [if_pos hs] at hl
      obtain ⟨l0, hl0, hrol⟩ := exceptMap_ok hl
      rw [← hrol] at ht
      unfold rollover at ht
      cases l0 with
      | nil => simp at ht
      | cons t0 ts =>
        obtain ⟨u, hu, hfix⟩ := List.mem_map.mp ht
        obtain ⟨b, hb⟩ := parseAll_mem _ _ _ _ hl0 u hu
        have hdur := parse_ok_some b r.date now u hb
        rw [← hfix]
        unfold fixTuple
        split
        · rfl
        · exact hdur
    · rw [if_neg hs] at hl
      injection hl with hl
      rw [← hl] at ht
      simp at ht

/-- C8 witness: the first tuple extracted from the concrete 200 page has
duration equal to arrival minus departure. -/
theorem pipeline_duration_witness :
    demoTuple.1.duration = dtSub demoTuple.1.arrives demoTuple.1.departs :=
  pipeline_duration demoFetch200 demoReq demoNow demoTuples (by decide)
    demoTuple (by decide)

theorem isLeap_iff (y : Nat) :
    isLeap y = true ↔ ((4 ∣ y ∧ ¬ 100 ∣ y) ∨ 400 ∣ y) := by
  have d4 : 4 ∣ y ↔ y % 4 = 0 := Nat.dvd_iff_mod_eq_zero
  have d100 : 100 ∣ y ↔ y % 100 = 0 := Nat.dvd_iff_mod_eq_zero
  have d400 : 400 ∣ y ↔ y % 400 = 0 := Nat.dvd_iff_mod_eq_zero
  simp only [isLeap, d4, d100, d400, Bool.and_eq_true, Bool.or_eq_true,
    beq_iff_eq, bne_iff_ne]
  omega

theorem daysBeforeMonth_succ (y m : Nat) (h : 1 ≤ m) :
    daysBeforeMonth y (m + 1) = daysBeforeMonth y m + daysInMonth y m := by
  unfold daysBeforeMonth
  have h1 : m + 1 - 1 = (m - 1) + 1 := by omega
  rw [h1, List.range'_1_concat]
  have h2 : 1 + (m - 1) = m := by omega
  simp [h2]

theorem daysBeforeYear_succ (y : Nat) (h : 1 ≤ y) :
    daysBeforeYear (y + 1) = daysBeforeYear y + (if isLeap y then 366 else 365) := by
  unfold daysBeforeYear
  have hy : y - 1 + 1 = y := by omega
  have e4 : y / 4 = (y - 1) / 4 + if 4 ∣ y then 1 else 0 := by
    conv_lhs => rw [← hy]
    rw [Nat.succ_div, hy]
  have e100 : y / 100 = (y - 1) / 100 + if 100 ∣ y then 1 else 0 := by
    conv_lhs => rw [← hy]
    rw [Nat.succ_div, hy]
  have e400 : y / 400 = (y - 1) / 400 + if 400 ∣ y then 1 else 0 := by
    conv_lhs => rw [← hy]
    rw [Nat.succ_div, hy]
  have hleap := isLeap_iff y
  simp only [Nat.add_sub_cancel]
  cases hl : isLeap y
  · rw [hl] at hleap
    simp only [Bool.false_eq_true, false_iff] at hleap
    rw [e4, e100, e400]
    simp only [Bool.false_eq_true, if_false]
    by_cases h4 : 4 ∣ y
    · by_cases h100 : 100 ∣ y
      · have h400 : ¬ 400 ∣ y := by tauto
        rw [if_pos h4, if_pos h100, if_neg h400]
        omega
      · exact absurd (Or.inl ⟨h4, h100⟩) hleap
    · have h100 : ¬ 100 ∣ y := fun hc => h4 (dvd_trans (by norm_num) hc)
      have h400 : ¬ 400 ∣ y := fun hc => h4 (dvd_trans (by norm_num) hc)
      rw [if_neg h4, if_neg h100, if_neg h400]
      omega
  · rw [hl] at hleap
    simp only [true_iff] at hleap
    rw [e4, e100, e400]
    simp only [if_true]
    rcases hleap with ⟨h4, h100⟩ | h400
    · have h400 : ¬ 400 ∣ y := fun hc => h100 (dvd_trans (by norm_num) hc)
      rw [if_pos h4, if_neg h100, if_neg h400]
      omega
    · have h100 : (100 : Nat) ∣ y := dvd_trans (by norm_num) h400
      have h4 : (4 : Nat) ∣ y := dvd_trans (by norm_num) h400
      rw [if_pos h4, if_pos h100, if_pos h400]
      omega

theorem daysBeforeMonth_12 (y : Nat) :
    daysBeforeMonth y 12 + 31 = 365 + (if isLeap y then 1 else 0) := by
  have hr : List.range' 1 (12 - 1) = [1, 2, 3, 4, 5, 6, 7, 8, 9, 10, 11] := by decide
  unfold daysBeforeMonth
  rw [hr]
  simp only [List.map_cons, List.map_nil, List.sum_cons, List.sum_nil]
  unfold daysInMonth
  norm_num
  cases hl : isLeap y <;> simp [hl]

theorem toMinutesZ_addOneDay (d : DateTime) (h : ValidDT d) :
    toMinutesZ (addOneDay d) = toMinutesZ d + 1440 := by
  obtain ⟨hy, hm1, hm2, hd1, hd2, hh, hmin⟩ := h
  unfold addOneDay
  by_cases c1 : d.day < daysInMonth d.year d.month
  · rw [if_pos c1]
    simp only [toMinutesZ, ordinal]
    push_cast
    ring
  · rw [if_neg c1]
    have hdeq : d.day = daysInMonth d.year d.month := by omega
    by_cases c2 : d.month < 12
    · rw [if_pos c2]
      simp only [toMinutesZ, ordinal]
      rw [daysBeforeMonth_succ d.year d.month hm1, hdeq]
      push_cast
      ring
    · have hmeq : d.month = 12 := by omega
      rw [if_neg c2]
      simp only [toMinutesZ, ordinal]
      rw [daysBeforeYear_succ d.year hy]
      have hd31 : d.day = 31 := by
        rw [hdeq, hmeq]
        simp [daysInMonth]
      have h12 := daysBeforeMonth_12 d.year
      have h1 : daysBeforeMonth (d.year + 1) 1 = 0 := by
        simp [daysBeforeMonth, List.range']
      rw [hd31, hmeq, h1]
      cases hl : isLeap d.year
      · simp only [hl, Bool.false_eq_true, if_false] at h12 ⊢
        push_cast
        omega
      · simp only [hl, if_true] at h12 ⊢
        push_cast
        omega

/-- C3 (confirmed): on a non-empty extracted page, the Rollover Corrector
maps every tuple against the first tuple's departure hour as anchor: a
tuple departing at an hour numerically below the anchor has departure and
arrival advanced by exactly one day (1440 minutes), duration recomputed
as new arrival minus new departure, and fingerprint recomputed from the
corrected journey, its fare untouched; any other tuple is unchanged. -/
theorem rollover_corrects (t0 : JourneyD × FareD) (ts : List (JourneyD × FareD))
    (t : JourneyD × FareD) (_ht : t ∈ t0 :: ts)
    (hd : ValidDT t.1.departs) (ha : ValidDT t.1.arrives) :
    rollover (t0 :: ts) = (t0 :: ts).map (fixTuple t0.1.departs.hour) ∧
    (t.1.departs.hour < t0.1.departs.hour →
      toMinutesZ (fixTuple t0.1.departs.hour t).1.departs =
        toMinutesZ t.1.departs + 1440 ∧
      toMinutesZ (fixTuple t0.1.departs.hour t).1.arrives =
        toMinutesZ t.1.arrives + 1440 ∧
      (fixTuple t0.1.departs.hour t).1.duration =
        dtSub (fixTuple t0.1.departs.hour t).1.arrives
          (fixTuple t0.1.departs.hour t).1.departs ∧
      (fixTuple t0.1.departs.hour t).1.hash =
        makehash (fixTuple t0.1.departs.hour t).1 ∧
      (fixTuple t0.1.departs.hour t).2 = t.2) ∧
    (¬ t.1.departs.hour < t0.1.departs.hour →
      fixTuple t0.1.departs.hour t = t) := by
  refine ⟨rfl, ?_, ?_⟩
  · intro hlt
    unfold fixTuple
    rw [if_pos hlt]
    refine ⟨toMinutesZ_addOneDay _ hd, toMinutesZ_addOneDay _ ha, rfl, ?_, rfl⟩
    dsimp only []
    unfold makehash
    congr 1
  · intro hge
    unfold fixTuple
    rw [if_neg hge]

/-- C3 witness: on the concrete page [rT0, rT1], the anchor is 23 and the
00:30 tuple rT1 is advanced by one day with duration and fingerprint
recomputed. -/
theorem rollover_corrects_witness :
    rollover [rT0, rT1] = [rT0, rT1].map (fixTuple rT0.1.departs.hour) ∧
    (rT1.1.departs.hour < rT0.1.departs.hour →
      toMinutesZ (fixTuple rT0.1.departs.hour rT1).1.departs =
        toMinutesZ rT1.1.departs + 1440 ∧
      toMinutesZ (fixTuple rT0.1.departs.hour rT1).1.arrives =
        toMinutesZ rT1.1.arrives + 1440 ∧
      (fixTuple rT0.1.departs.hour rT1).1.duration =
        dtSub (fixTuple rT0.1.departs.hour rT1).1.arrives
          (fixTuple rT0.1.departs.hour rT1).1.departs ∧
      (fixTuple rT0.1.departs.hour rT1).1.hash =
        makehash (fixTuple rT0.1.departs.hour rT1).1 ∧
      (fixTuple rT0.1.departs.hour rT1).2 = rT1.2) ∧
    (¬ rT1.1.departs.hour < rT0.1.departs.hour →
      fixTuple rT0.1.departs.hour rT1 = rT1) :=
  rollover_corrects rT0 [rT1] rT1 (by decide) (by decide) (by decide)

theorem natDigitsAux_stable (n : Nat) : ∀ f1 f2, n < f1 → n < f2 →
    natDigitsAux f1 n = natDigitsAux f2 n := by
  induction n using Nat.strong_induction_on with
  | _ n ih =>
    intro f1 f2 h1 h2
    cases f1 with
    | zero => omega
    | succ a =>
      cases f2 with
      | zero => omega
      | succ b =>
        simp only [natDigitsAux]
        by_cases hn : n < 10
        · rw [if_pos hn, if_pos hn]
        · rw [if_neg hn, if_neg hn]
          rw [ih (n / 10) (by omega) a b (by omega) (by omega)]

theorem natDigits_eq (n : Nat) :
    natDigits n = if n < 10 then [digitChar n]
      else natDigits (n / 10) ++ [digitChar (n % 10)] := by
  unfold natDigits
  by_cases h : n < 10
  · simp [natDigitsAux, h]
  · simp only [natDigitsAux, h, if_false]
    rw [natDigitsAux_stable (n / 10) n (n / 10 + 1) (by omega) (by omega)]
    simp only [natDigitsAux]

theorem digitChar_toNat (n : Nat) (h : n < 10) : (digitChar n).toNat = 48 + n := by
  interval_cases n <;> decide

theorem digitsVal_cons_zero (l : List Char) : digitsVal ('0' :: l) = digitsVal l := by
  unfold digitsVal
  simp only [List.foldl_cons]
  congr 1

theorem digitsVal_append (l : List Char) (c : Char) :
    digitsVal (l ++ [c]) = 10 * digitsVal l + (c.toNat - 48) := by
  unfold digitsVal
  rw [List.foldl_append]
  simp

theorem digitsVal_natDigits (n : Nat) : digitsVal (natDigits n) = n := by
  induction n using Nat.strong_induction_on with
  | _ n ih =>
    rw [natDigits_eq]
    by_cases h : n < 10
    · rw [if_pos h]
      unfold digitsVal
      simp only [List.foldl_cons, List.foldl_nil]
      rw [digitChar_toNat n h]
      omega
    · rw [if_neg h]
      rw [digitsVal_append]
      rw [ih (n / 10) (by omega)]
      rw [digitChar_toNat (n % 10) (by omega)]
      omega

theorem natDigits_len1 (n : Nat) (h : n < 10) : (natDigits n).length = 1 := by
  rw [natDigits_eq, if_pos h]
  rfl

theorem natDigits_len2 (n : Nat) (h1 : 10 ≤ n) (h2 : n < 100) :
    (natDigits n).length = 2 := by
  rw [natDigits_eq, if_neg (by omega)]
  simp [natDigits_len1 (n / 10) (by omega)]

theorem natDigits_len3 (n : Nat) (h1 : 100 ≤ n) (h2 : n < 1000) :
    (natDigits n).length = 3 := by
  rw [natDigits_eq, if_neg (by omega)]
  simp [natDigits_len2 (n / 10) (by omega) (by omega)]

theorem natDigits_len4 (n : Nat) (h1 : 1000 ≤ n) (h2 : n < 10000) :
    (natDigits n).length = 4 := by
  rw [natDigits_eq, if_neg (by omega)]
  simp [natDigits_len3 (n / 10) (by omega) (by omega)]

theorem pad2_data (n : Nat) :
    (pad2 n).data = if n < 10 then '0' :: natDigits n else natDigits n := by
  unfold pad2
  by_cases h : n < 10
  · rw [if_pos h, if_pos h]
    rfl
  · rw [if_neg h, if_neg h]
    rfl

theorem pad4_data (n : Nat) :
    (pad4 n).data =
      if n < 10 then '0' :: '0' :: '0' :: natDigits n
      else if n < 100 then '0' :: '0' :: natDigits n
      else if n < 1000 then '0' :: natDigits n
      else natDigits n := by
  unfold pad4
  by_cases h1 : n < 10
  · rw [if_pos h1, if_pos h1]; rfl
  · rw [if_neg h1, if_neg h1]
    by_cases h2 : n < 100
    · rw [if_pos h2, if_pos h2]; rfl
    · rw [if_neg h2, if_neg h2]
      by_cases h3 : n < 1000
      · rw [if_pos h3, if_pos h3]; rfl
      · rw [if_neg h3, if_neg h3]; rfl

theorem digitsVal_pad2 (n : Nat) : digitsVal (pad2 n).data = n := by
  rw [pad2_data]
  by_cases h : n < 10
  · rw [if_pos h, digitsVal_cons_zero, digitsVal_natDigits]
  · rw [if_neg h, digitsVal_natDigits]

theorem digitsVal_pad4 (n : Nat) : digitsVal (pad4 n).data = n := by
  rw [pad4_data]
  by_cases h1 : n < 10
  · rw [if_pos h1, digitsVal_cons_zero, digitsVal_cons_zero, digitsVal_cons_zero,
      digitsVal_natDigits]
  · rw [if_neg h1]
    by_cases h2 : n < 100
    · rw [if_pos h2, digitsVal_cons_zero, digitsVal_cons_zero, digitsVal_natDigits]
    · rw [if_neg h2]
      by_cases h3 : n < 1000
      · rw [if_pos h3, digitsVal_cons_zero, digitsVal_natDigits]
      · rw [if_neg h3, digitsVal_natDigits]

theorem pad2_inj (a b : Nat) (h : (pad2 a).data = (pad2 b).data) : a = b := by
  have := congrArg digitsVal h
  rwa [digitsVal_pad2, digitsVal_pad2] at this

theorem pad4_inj (a b : Nat) (h : (pad4 a).data = (pad4 b).data) : a = b := by
  have := congrArg digitsVal h
  rwa [digitsVal_pad4, digitsVal_pad4] at this

theorem natStr_inj (a b : Nat) (h : (natStr a).data = (natStr b).data) : a = b := by
  have := congrArg digitsVal h
  rwa [show (natStr a).data = natDigits a from rfl,
    show (natStr b).data = natDigits b from rfl,
    digitsVal_natDigits, digitsVal_natDigits] at this

theorem pad2_len (n : Nat) (h : n < 100) : (pad2 n).data.length = 2 := by
  rw [pad2_data]
  by_cases h1 : n < 10
  · simp [h1, natDigits_len1 n h1]
  · simp [h1, natDigits_len2 n (by omega) h]

theorem pad4_len (n : Nat) (h : n < 10000) : (pad4 n).data.length = 4 := by
  rw [pad4_data]
  by_cases h1 : n < 10
  · simp [h1, natDigits_len1 n h1]
  · by_cases h2 : n < 100
    · simp [h1, h2, natDigits_len2 n (by omega) h2]
    · by_cases h3 : n < 1000
      · simp [h1, h2, h3, natDigits_len3 n (by omega) h3]
      · simp [h1, h2, h3, natDigits_len4 n (by omega) h]

theorem dtStr_data (d : DateTime) :
    (dtStr d).data = (pad4 d.year).data ++ '-' :: ((pad2 d.month).data ++ '-' ::
      ((pad2 d.day).data ++ ' ' :: ((pad2 d.hour).data ++ ':' ::
      ((pad2 d.minute).data ++ [':', '0', '0'])))) := by
  have hdash : ("-" : String).data = ['-'] := rfl
  have hsp : (" " : String).data = [' '] := rfl
  have hcol : (":" : String).data = [':'] := rfl
  have hcol00 : (":00" : String).data = [':', '0', '0'] := rfl
  simp only [dtStr, String.data_append, hdash, hsp, hcol, hcol00,
    List.append_assoc, List.singleton_append]
  rfl

theorem dtStr_len (d : DateTime) (h : StrB d) : (dtStr d).data.length = 19 := by
  obtain ⟨h1, h2, h3, h4, h5⟩ := h
  rw [dtStr_data]
  simp [pad4_len d.year h1, pad2_len d.month h2, pad2_len d.day h3,
    pad2_len d.hour h4, pad2_len d.minute h5]

theorem dtStr_inj (a b : DateTime) (ha : StrB a) (hb : StrB b)
    (h : (dtStr a).data = (dtStr b).data) : a = b := by
  obtain ⟨ha1, ha2, ha3, ha4, ha5⟩ := ha
  obtain ⟨hb1, hb2, hb3, hb4, hb5⟩ := hb
  rw [dtStr_data, dtStr_data] at h
  obtain ⟨e1, h⟩ := List.append_inj h
    (by rw [pad4_len a.year ha1, pad4_len b.year hb1])
  injection h with _ h
  obtain ⟨e2, h⟩ := List.append_inj h
    (by rw [pad2_len a.month ha2, pad2_len b.month hb2])
  injection h with _ h
  obtain ⟨e3, h⟩ := List.append_inj h
    (by rw [pad2_len a.day ha3, pad2_len b.day hb3])
  injection h with _ h
  obtain ⟨e4, h⟩ := List.append_inj h
    (by rw [pad2_len a.hour ha4, pad2_len b.hour hb4])
  injection h with _ h
  obtain ⟨e5, _⟩ := List.append_inj h
    (by rw [pad2_len a.minute ha5, pad2_len b.minute hb5])
  have hy := pad4_inj a.year b.year e1
  have hmo := pad2_inj a.month b.month e2
  have hda := pad2_inj a.day b.day e3
  have hho := pad2_inj a.hour b.hour e4
  have hmi := pad2_inj a.minute b.minute e5
  cases a; cases b
  simp_all

theorem hashInput_inj (j1 j2 : JourneyD) (h1 : HashSafe j1) (h2 : HashSafe j2)
    (h : hashInput j1 = hashInput j2) :
    j1.src = j2.src ∧ j1.dest = j2.dest ∧ j1.changes = j2.changes ∧
      j1.departs = j2.departs ∧ j1.arrives = j2.arrives := by
  obtain ⟨hs1, hd1, hc1, hsbd1, hsba1⟩ := h1
  obtain ⟨hs2, hd2, hc2, hsbd2, hsba2⟩ := h2
  have hd := congrArg String.data h
  simp only [hashInput, String.data_append, List.append_assoc] at hd
  obtain ⟨e1, hd⟩ := List.append_inj hd (by rw [hs1, hs2])
  obtain ⟨e2, hd⟩ := List.append_inj hd (by rw [hd1, hd2])
  obtain ⟨e3, hd⟩ := List.append_inj' hd (by
    rw [List.length_append, List.length_append, dtStr_len j1.departs hsbd1,
      dtStr_len j2.departs hsbd2, dtStr_len j1.arrives hsba1,
      dtStr_len j2.arrives hsba2])
  obtain ⟨e4, e5⟩ := List.append_inj hd
    (by rw [dtStr_len j1.departs hsbd1, dtStr_len j2.departs hsbd2])
  have hch : j1.changes = j2.changes := by
    have i1 : intStr j1.changes = natStr j1.changes.toNat := by
      unfold intStr
      rw [if_neg (by omega)]
    have i2 : intStr j2.changes = natStr j2.changes.toNat := by
      unfold intStr
      rw [if_neg (by omega)]
    rw [i1, i2] at e3
    have := natStr_inj _ _ e3
    omega
  exact ⟨String.ext e1, String.ext e2, hch,
    dtStr_inj _ _ hsbd1 hsbd2 e4, dtStr_inj _ _ hsba1 hsba2 e5⟩

/-- C6 (amended): the Identity Hasher is a pure function of the five
identity fields: equal (origin code, destination code, changes,
departure, arrival) always give equal fingerprints, whatever the other
attributes.  Under the fixed-width conditions the pipeline always meets
(three-character station codes, nonnegative change count, datetime
components within their rendered widths), tuples differing in an identity
field produce different SHA-1 input strings, hence different fingerprints
barring a SHA-1 collision.  Without those conditions the unseparated
concatenation is ambiguous and distinct tuples can collide with
certainty (see the counterexample). -/
theorem makehash_spec (j1 j2 : JourneyD) (h1 : HashSafe j1) (h2 : HashSafe j2) :
    ((j1.src, j1.dest, j1.changes, j1.departs, j1.arrives) =
        (j2.src, j2.dest, j2.changes, j2.departs, j2.arrives) →
      makehash j1 = makehash j2) ∧
    ((j1.src, j1.dest, j1.changes, j1.departs, j1.arrives) ≠
        (j2.src, j2.dest, j2.changes, j2.departs, j2.arrives) →
      hashInput j1 ≠ hashInput j2) := by
  constructor
  · intro h
    simp only [Prod.mk.injEq] at h
    obtain ⟨e1, e2, e3, e4, e5⟩ := h
    unfold makehash hashInput
    rw [e1, e2, e3, e4, e5]
  · intro hne hcontra
    obtain ⟨e1, e2, e3, e4, e5⟩ := hashInput_inj j1 j2 h1 h2 hcontra
    exact hne (by rw [e1, e2, e3, e4, e5])

/-- C6 witness: two concrete three-letter-code journeys differing only in
the destination code have different SHA-1 input strings. -/
theorem makehash_spec_witness :
    ((wJ1.src, wJ1.dest, wJ1.changes, wJ1.departs, wJ1.arrives) =
        (wJ2.src, wJ2.dest, wJ2.changes, wJ2.departs, wJ2.arrives) →
      makehash wJ1 = makehash wJ2) ∧
    ((wJ1.src, wJ1.dest, wJ1.changes, wJ1.departs, wJ1.arrives) ≠
        (wJ2.src, wJ2.dest, wJ2.changes, wJ2.departs, wJ2.arrives) →
      hashInput wJ1 ≠ hashInput wJ2) :=
  makehash_spec wJ1 wJ2 (by decide) (by decide)

/-- C6 (counterexample): the journeys cJ1 ("AB" to "CD") and cJ2 ("ABC"
to "D") differ in both origin and destination codes yet feed the same
unseparated concatenation to SHA-1, so their fingerprints are identical
with certainty, refuting injectivity of the fingerprint over arbitrary
journey tuples. -/
theorem makehash_collision :
    cJ1.src ≠ cJ2.src ∧ cJ1.dest ≠ cJ2.dest ∧ makehash cJ1 = makehash cJ2 := by
  refine ⟨by decide, by decide, ?_⟩
  have h : hashInput cJ1 = hashInput cJ2 := by decide
  unfold makehash
  rw [h]
